import Mathlib

/-!
Shallow embedding of `Keitai-UCPDisplay/Keitai_UCPDisplay.py`, a Tk viewer for
images packed inside `.ucp` zip archives.

Modelling conventions:
* Python strings are `List Char` (`Str`); `str.lower` maps `Char.toLower`
  over the characters and `str.endswith` is a suffix test, both written as
  structural recursions so that concrete instances evaluate.
* The zip library is an environment `Env` mapping a path to `some`
  (object identity of the `ZipFile`, its `namelist()`) or to `none` when
  `zipfile.ZipFile` raises `BadZipFile`.
* The Tk widgets are projected to the data the handlers read and write:
  the listbox contents, the current selection, the displayed photo and the
  message boxes (counted).  Decoding and resizing an image is abstracted to
  allocating a fresh photo identifier; the boolean returned by `on_select`
  records whether the zip member was read and decoded on that call.
* Python `int()` of the nonnegative float `w * ratio` is the floor of the
  exact rational value; float arithmetic is idealized as `ℚ`.
* A handler that would raise an uncaught exception (an out-of-range listbox
  index) returns `none`.
-/

namespace UCPDisplay

/-- Python strings, modelled as their character lists. -/
abbrev Str := List Char

/-- Python `str.lower` (ASCII case mapping, which is all the extension
tests below need). -/
def toLowerL (s : Str) : Str := s.map Char.toLower

/-- Does `s` start with `p`? (helper for the suffix test). -/
def startsWithL : Str → Str → Bool
  | _, [] => true
  | [], _ :: _ => false
  | c :: cs, d :: ds => (c == d) && startsWithL cs ds

/-- Python `str.endswith` for a single suffix. -/
def endsWithL (s suf : Str) : Bool := startsWithL s.reverse suf.reverse

/-- Model of `os.path.join root fname` with `/` as separator. -/
def joinPath (a b : Str) : Str := a ++ "/".data ++ b

/-- Model of `os.path.basename`: the characters after the last separator. -/
def basenameL (p : Str) : Str :=
  p.foldl (fun acc c => if c = '/' then [] else acc ++ [c]) []

/-- Line 75/95: `img_exts = ('.jpg', '.jpeg', '.gif', '.png')`. -/
def img_exts : List Str := [".jpg".data, ".jpeg".data, ".gif".data, ".png".data]

/-- Lines 79/104: `name.lower().endswith(img_exts)` (a tuple argument to
`endswith` succeeds when any of its members is a suffix). -/
def isImageName (name : Str) : Bool :=
  img_exts.any (fun e => endsWithL (toLowerL name) e)

/-- Line 90: `fname.lower().endswith('.ucp')`. -/
def isUcpName (fname : Str) : Bool := endsWithL (toLowerL fname) ".ucp".data

/-- One listbox entry, `(id(zip_obj), image_name, display_name)`.  The zip
object itself is represented by its identity. -/
abbrev Entry := ℕ × Str × Str

/-- Lines 76-81 (and 102-106 for one archive of the folder scan): starting
from an empty accumulator, append `(zip_obj, name, base::name)` for every
member name with an image extension, in `namelist()` order. -/
def entriesFromArchive (zid : ℕ) (base : Str) (names : List Str) : List Entry :=
  names.foldl
    (fun acc n =>
      if isImageName n then acc ++ [(zid, n, base ++ "::".data ++ n)] else acc)
    []

/-- A directory tree: a directory's name, its plain files and its
subdirectories. -/
inductive DirTree where
  | node : Str → List Str → List DirTree → DirTree

def DirTree.name : DirTree → Str
  | .node n _ _ => n

def DirTree.files : DirTree → List Str
  | .node _ fs _ => fs

def DirTree.subdirs : DirTree → List DirTree
  | .node _ _ ds => ds

mutual

/-- Model of `os.walk` (top-down): yield the directory itself (under the path it was
reached by), then walk each subdirectory in order. -/
def walkFrom (curPath : Str) : DirTree → List (Str × List Str)
  | .node _ files subdirs => (curPath, files) :: walkChildren curPath subdirs

def walkChildren (curPath : Str) : List DirTree → List (Str × List Str)
  | [] => []
  | t :: ts => walkFrom (joinPath curPath t.name) t ++ walkChildren curPath ts

end

/-- Lines 87-91: collect `os.path.join(root, fname)` for every walked file
whose lowercased name ends with `.ucp`. -/
def collectArchives (folderPath : Str) (t : DirTree) : List Str :=
  (walkFrom folderPath t).flatMap
    (fun rf => (rf.2.filter isUcpName).map (fun f => joinPath rf.1 f))

mutual

/-- Specification-side description for C3: all files anywhere under a
directory, as (directory path, file name) pairs in walk order. -/
def filesUnder (curPath : Str) : DirTree → List (Str × Str)
  | .node _ files subdirs =>
      files.map (fun f => (curPath, f)) ++ filesUnderChildren curPath subdirs

def filesUnderChildren (curPath : Str) : List DirTree → List (Str × Str)
  | [] => []
  | t :: ts => filesUnder (joinPath curPath t.name) t ++ filesUnderChildren curPath ts

end

/-- The widget and handler state a viewer interaction reads and writes:
`entries` and `image_cache` from lines 51-52, the listbox contents and
selection, the displayed photo, and how many error/info dialogs were
shown. `nextPhotoId` allocates identities for decoded photos. -/
structure ViewerState where
  entries : List Entry
  listboxItems : List Str
  curselection : List ℕ
  cache : List ((ℕ × Str) × ℕ)
  displayedImage : Option ℕ
  nextPhotoId : ℕ
  errorsShown : ℕ
  infosShown : ℕ
deriving DecidableEq

/-- Line 116: `cache_key = (id(zip_obj), name)`. -/
def entryKey (e : Entry) : ℕ × Str := (e.1, e.2.1)

/-- Python dict membership/lookup on the cache, modelled as an
association list. -/
def cacheFind (k : ℕ × Str) : List ((ℕ × Str) × ℕ) → Option ℕ
  | [] => none
  | (k', v) :: rest => if k' = k then some v else cacheFind k rest

/-- Lines 109-130, `on_select`: return early when there are no entries or
no selection; otherwise look the selected entry's key up in the cache, and
on a miss read and decode the member (abstracted to allocating the fresh
photo id `nextPhotoId`) and store it.  The boolean records whether the zip
member was read and decoded; `none` models the `IndexError` of
`self.entries[idx[0]]` on an out-of-range index. -/
def on_select (s : ViewerState) : Option (ViewerState × Bool) :=
  if s.entries.isEmpty then some (s, false)
  else
    match s.curselection with
    | [] => some (s, false)
    | i :: _ =>
      match s.entries.get? i with
      | none => none
      | some e =>
        match cacheFind (entryKey e) s.cache with
        | some photo => some ({ s with displayedImage := some photo }, false)
        | none =>
          some ({ s with
                    cache := (entryKey e, s.nextPhotoId) :: s.cache,
                    nextPhotoId := s.nextPhotoId + 1,
                    displayedImage := some s.nextPhotoId }, true)

/-- Lines 54-60, `populate_listbox`: clear the listbox (which clears the
selection), insert every entry's display name, and when there are entries
select index 0 and run `on_select`. -/
def populate_listbox (s : ViewerState) : Option ViewerState :=
  let s1 := { s with
                listboxItems := s.entries.map (fun e : Entry => e.2.2),
                curselection := ([] : List ℕ) }
  if s1.entries.isEmpty then some s1
  else
    (on_select { s1 with curselection := [0] }).map (fun r : ViewerState × Bool => r.1)

/-- The zip library: a path yields the opened archive (its object identity
and `namelist()`), or `none` when `zipfile.ZipFile` raises `BadZipFile`. -/
structure Env where
  zipOf : Str → Option (ℕ × List Str)

/-- Per-archive contribution of the folder scan loop (lines 97-106): an
archive that raises `BadZipFile` is skipped and contributes nothing. -/
def archiveEntries (env : Env) (path : Str) : List Entry :=
  match env.zipOf path with
  | none => []
  | some (zid, names) => entriesFromArchive zid (basenameL path) names

/-- Lines 62-82, `open_ucp` with a path supplied: return when the path is
falsy; show an error and return on `BadZipFile`; otherwise rebuild
`entries` from the archive's image members and repopulate the listbox. -/
def open_ucp (env : Env) (path : Str) (s : ViewerState) : Option ViewerState :=
  if path.isEmpty then some s
  else
    match env.zipOf path with
    | none => some { s with errorsShown := s.errorsShown + 1 }
    | some (zid, names) =>
        populate_listbox
          { s with entries := entriesFromArchive zid (basenameL path) names }

/-- Lines 84-107, `open_ucp_folder`: return when the path is falsy or not a
directory (`dir = none`); collect the `.ucp` files under it; when none are
found show an info dialog and return; otherwise rebuild `entries` from all
archives, skipping the ones that raise `BadZipFile`, and repopulate. -/
def open_ucp_folder (env : Env) (path : Str) (dir : Option DirTree)
    (s : ViewerState) : Option ViewerState :=
  if path.isEmpty then some s
  else
    match dir with
    | none => some s
    | some t =>
      let archives := collectArchives path t
      if archives.isEmpty then some { s with infosShown := s.infosShown + 1 }
      else
        let newEntries :=
          archives.foldl
            (fun acc p =>
              match env.zipOf p with
              | none => acc
              | some (zid, names) =>
                  acc ++ entriesFromArchive zid (basenameL p) names)
            []
        populate_listbox { s with entries := newEntries }

/-- Python `a or d` for the nonnegative integer `a`: `a` unless it is 0. -/
def orDefault (n d : ℕ) : ℕ := if n = 0 then d else n

/-- Binary `min` on ℚ written as the comparison Python's `min` performs. -/
def ratMin (a b : ℚ) : ℚ := if a ≤ b then a else b

/-- Lines 132-137, `get_display_size`: pane bounds are the frame's reported
size with 400 substituted for a falsy (zero) report; the image is scaled by
`min(max_w / w, max_h / h, 1)` and each product is truncated with `int()`
(the floor, as the products are nonnegative). -/
def get_display_size (winfo_w winfo_h w h : ℕ) : ℤ × ℤ :=
  let max_w := orDefault winfo_w 400
  let max_h := orDefault winfo_h 400
  let r : ℚ := ratMin ((max_w : ℚ) / (w : ℚ)) (ratMin ((max_h : ℚ) / (h : ℚ)) 1)
  (⌊(w : ℚ) * r⌋, ⌊(h : ℚ) * r⌋)

/-- Lines 124-125 of `on_select`: `new_w = max(1, new_w)` and
`new_h = max(1, new_h)` before `resize`. -/
def clampDims (p : ℤ × ℤ) : ℤ × ℤ := (max 1 p.1, max 1 p.2)

/-- The parsed command line (lines 155-158): an optional `-F`/`--folder`
value and an optional positional file. -/
structure Args where
  folder : Option Str
  file : Option Str

/-- Which top-level action the `__main__` block takes. -/
inductive MainAction where
  | folderMode : Str → MainAction
  | fileMode : Str → MainAction
  | idle : MainAction
deriving DecidableEq

/-- Python truthiness of an optional string: `None` and `""` are falsy. -/
def strTruthy : Option Str → Bool
  | none => false
  | some s => !s.isEmpty

/-- Lines 160-164: `if args.folder: open_ucp_folder(...)` /
`elif args.file: open_ucp(...)`. -/
def mainDispatch (a : Args) : MainAction :=
  if strTruthy a.folder then MainAction.folderMode (a.folder.getD [])
  else if strTruthy a.file then MainAction.fileMode (a.file.getD [])
  else MainAction.idle

/-- A freshly started viewer: empty entry list, listbox, cache. -/
def stInit : ViewerState := ViewerState.mk [] [] [] [] none 0 0 0

/-- Concrete zip library: `a.ucp` is a valid archive with one image and one
non-image member; every other path raises `BadZipFile`. -/
def envA : Env :=
  Env.mk (fun p =>
    if p = "a.ucp".data then some (1, ["i.png".data, "n.txt".data]) else none)

/-- A viewer showing one archive entry, with entry 0 selected and an empty
cache. -/
def stSel : ViewerState :=
  ViewerState.mk [(5, "i.png".data, "z.ucp::i.png".data)]
    ["z.ucp::i.png".data] [0] [] none 0 0 0

/-- State `stSel` after its first `on_select`: the member was decoded to photo 0
and cached. -/
def stSel1 : ViewerState :=
  ViewerState.mk [(5, "i.png".data, "z.ucp::i.png".data)]
    ["z.ucp::i.png".data] [0] [((5, "i.png".data), 0)] (some 0) 1 0 0

/-- A viewer whose entry list was just rebuilt but whose listbox has not
been repopulated yet. -/
def stPop : ViewerState :=
  ViewerState.mk [(5, "i.png".data, "z.ucp::i.png".data)] [] [] [] none 0 0 0

/-- A directory with no `.ucp` file anywhere under it. -/
def treeNoUcp : DirTree := DirTree.node "d".data ["x.txt".data] []

/-- A directory holding two `.ucp` files. -/
def treeTwo : DirTree :=
  DirTree.node "d".data ["a.ucp".data, "b.ucp".data] []

/-- Concrete zip library for the folder scan: `root/a.ucp` is valid,
`root/b.ucp` (and anything else) raises `BadZipFile`. -/
def envFolder : Env :=
  Env.mk (fun p =>
    if p = "root/a.ucp".data then some (1, ["i.png".data]) else none)

theorem foldl_filter_append {α β : Type} (p : α → Bool) (f : α → β) :
    ∀ (l : List α) (acc : List β),
      l.foldl (fun a n => if p n then a ++ [f n] else a) acc
        = acc ++ (l.filter p).map f
  | [], acc => by simp
  | n :: l, acc => by
      by_cases h : p n <;>
        simp [List.filter_cons, h, foldl_filter_append p f l]

theorem entriesFromArchive_eq (zid : ℕ) (base : Str) (names : List Str) :
    entriesFromArchive zid base names =
      (names.filter isImageName).map (fun n => (zid, n, base ++ "::".data ++ n)) := by
  have h := foldl_filter_append isImageName
    (fun n => (zid, n, base ++ "::".data ++ n)) names []
  rw [List.nil_append] at h
  exact h

theorem isEmpty_false_of_ne_nil {α : Type} {l : List α} (h : l ≠ []) :
    l.isEmpty = false := by
  cases l with
  | nil => exact absurd rfl h
  | cons x xs => rfl

theorem on_select_hit (s : ViewerState) (i : ℕ) (rest : List ℕ) (e : Entry)
    (photo : ℕ) (hsel : s.curselection = i :: rest)
    (he : s.entries.get? i = some e)
    (hc : cacheFind (entryKey e) s.cache = some photo) :
    on_select s = some ({ s with displayedImage := some photo }, false) := by
  have hne : s.entries.isEmpty = false := by
    apply isEmpty_false_of_ne_nil
    intro hent
    rw [hent] at he
    simp at he
  simp only [on_select, hne, hsel, he, hc, Bool.false_eq_true, if_false]

theorem on_select_miss (s : ViewerState) (i : ℕ) (rest : List ℕ) (e : Entry)
    (hsel : s.curselection = i :: rest) (he : s.entries.get? i = some e)
    (hc : cacheFind (entryKey e) s.cache = none) :
    on_select s =
      some ({ s with
                cache := (entryKey e, s.nextPhotoId) :: s.cache,
                nextPhotoId := s.nextPhotoId + 1,
                displayedImage := some s.nextPhotoId }, true) := by
  have hne : s.entries.isEmpty = false := by
    apply isEmpty_false_of_ne_nil
    intro hent
    rw [hent] at he
    simp at he
  simp only [on_select, hne, hsel, he, hc, Bool.false_eq_true, if_false]

theorem populate_listbox_some (s : ViewerState) :
    ∃ s', populate_listbox s = some s' ∧
      s'.entries = s.entries ∧
      s'.listboxItems = s.entries.map (fun e : Entry => e.2.2) ∧
      s'.errorsShown = s.errorsShown ∧
      s'.infosShown = s.infosShown ∧
      (s.entries = [] →
        s'.curselection = [] ∧ s'.displayedImage = s.displayedImage ∧
        s'.cache = s.cache) ∧
      (∀ e0, s.entries.get? 0 = some e0 →
        s'.curselection = [0] ∧
        ∃ p, cacheFind (entryKey e0) s'.cache = some p ∧
          s'.displayedImage = some p) := by
  by_cases hent : s.entries = []
  · refine ⟨{ s with listboxItems := s.entries.map (fun e : Entry => e.2.2),
                     curselection := ([] : List ℕ) }, ?_, rfl, rfl, rfl, rfl, ?_, ?_⟩
    · simp only [populate_listbox, hent, List.isEmpty_nil, if_true]
    · intro _; exact ⟨rfl, rfl, rfl⟩
    · intro e0 he0; rw [hent] at he0; simp at he0
  · obtain ⟨e0, tl, hcons⟩ : ∃ e0 tl, s.entries = e0 :: tl := by
      cases hc : s.entries with
      | nil => exact absurd hc hent
      | cons a b => exact ⟨a, b, rfl⟩
    have hne : s.entries.isEmpty = false := isEmpty_false_of_ne_nil hent
    have hget : s.entries.get? 0 = some e0 := by rw [hcons]; rfl
    cases hc : cacheFind (entryKey e0) s.cache with
    | some photo =>
        have hsome := on_select_hit
          { s with listboxItems := s.entries.map (fun e : Entry => e.2.2),
                   curselection := [0] } 0 [] e0 photo rfl hget hc
        refine ⟨{ s with listboxItems := s.entries.map (fun e : Entry => e.2.2),
                         curselection := [0],
                         displayedImage := some photo }, ?_, rfl, rfl, rfl, rfl, ?_, ?_⟩
        · simp only [populate_listbox, hne, Bool.false_eq_true, if_false]
          rw [hsome]
          rfl
        · intro h; exact absurd h hent
        · intro e1 he1
          have he01 : e0 = e1 := by
            rw [hget] at he1
            exact Option.some.inj he1
          cases he01
          exact ⟨rfl, photo, hc, rfl⟩
    | none =>
        have hsome := on_select_miss
          { s with listboxItems := s.entries.map (fun e : Entry => e.2.2),
                   curselection := [0] } 0 [] e0 rfl hget hc
        refine ⟨{ s with listboxItems := s.entries.map (fun e : Entry => e.2.2),
                         curselection := [0],
                         cache := (entryKey e0, s.nextPhotoId) :: s.cache,
                         nextPhotoId := s.nextPhotoId + 1,
                         displayedImage := some s.nextPhotoId },
            ?_, rfl, rfl, rfl, rfl, ?_, ?_⟩
        · simp only [populate_listbox, hne, Bool.false_eq_true, if_false]
          rw [hsome]
          rfl
        · intro h; exact absurd h hent
        · intro e1 he1
          have he01 : e0 = e1 := by
            rw [hget] at he1
            exact Option.some.inj he1
          cases he01
          refine ⟨rfl, s.nextPhotoId, ?_, rfl⟩
          simp [cacheFind]

theorem ratMin_eq_min (a b : ℚ) : ratMin a b = min a b := by
  rw [ratMin, min_def]

/-- Claim C1: for an image with positive dimensions `(w, h)` and pane
bounds `(max_w, max_h)` (the reported frame size with the 400 fallback),
`get_display_size` returns `(int (w * r), int (h * r))` with
`r = min (max_w / w) (min (max_h / h) 1)`, and consequently both returned
dimensions are at most the pane bounds and at most the original
dimensions: the image is scaled to fit and never upscaled. -/
theorem get_display_size_fits (a b w h : ℕ) (hw : 0 < w) (hh : 0 < h) :
    get_display_size a b w h =
      (⌊(w : ℚ) * min ((orDefault a 400 : ℚ) / (w : ℚ))
          (min ((orDefault b 400 : ℚ) / (h : ℚ)) 1)⌋,
       ⌊(h : ℚ) * min ((orDefault a 400 : ℚ) / (w : ℚ))
          (min ((orDefault b 400 : ℚ) / (h : ℚ)) 1)⌋) ∧
    (get_display_size a b w h).1 ≤ (orDefault a 400 : ℤ) ∧
    (get_display_size a b w h).1 ≤ (w : ℤ) ∧
    (get_display_size a b w h).2 ≤ (orDefault b 400 : ℤ) ∧
    (get_display_size a b w h).2 ≤ (h : ℤ) := by
  have hw' : (0 : ℚ) < (w : ℚ) := by exact_mod_cast hw
  have hh' : (0 : ℚ) < (h : ℚ) := by exact_mod_cast hh
  have hmin : get_display_size a b w h =
      (⌊(w : ℚ) * min ((orDefault a 400 : ℚ) / (w : ℚ))
          (min ((orDefault b 400 : ℚ) / (h : ℚ)) 1)⌋,
       ⌊(h : ℚ) * min ((orDefault a 400 : ℚ) / (w : ℚ))
          (min ((orDefault b 400 : ℚ) / (h : ℚ)) 1)⌋) := by
    simp only [get_display_size, ratMin_eq_min]
  set R : ℚ := min ((orDefault a 400 : ℚ) / (w : ℚ))
      (min ((orDefault b 400 : ℚ) / (h : ℚ)) 1) with hR
  have hRw : R ≤ (orDefault a 400 : ℚ) / (w : ℚ) := min_le_left _ _
  have hRh : R ≤ (orDefault b 400 : ℚ) / (h : ℚ) :=
    le_trans (min_le_right _ _) (min_le_left _ _)
  have hR1 : R ≤ 1 := le_trans (min_le_right _ _) (min_le_right _ _)
  have hboundW : (w : ℚ) * R ≤ (orDefault a 400 : ℚ) := by
    calc (w : ℚ) * R ≤ (w : ℚ) * ((orDefault a 400 : ℚ) / (w : ℚ)) :=
          mul_le_mul_of_nonneg_left hRw (le_of_lt hw')
    _ = (orDefault a 400 : ℚ) := by field_simp
  have hselfW : (w : ℚ) * R ≤ (w : ℚ) := by
    calc (w : ℚ) * R ≤ (w : ℚ) * 1 := mul_le_mul_of_nonneg_left hR1 (le_of_lt hw')
    _ = (w : ℚ) := mul_one _
  have hboundH : (h : ℚ) * R ≤ (orDefault b 400 : ℚ) := by
    calc (h : ℚ) * R ≤ (h : ℚ) * ((orDefault b 400 : ℚ) / (h : ℚ)) :=
          mul_le_mul_of_nonneg_left hRh (le_of_lt hh')
    _ = (orDefault b 400 : ℚ) := by field_simp
  have hselfH : (h : ℚ) * R ≤ (h : ℚ) := by
    calc (h : ℚ) * R ≤ (h : ℚ) * 1 := mul_le_mul_of_nonneg_left hR1 (le_of_lt hh')
    _ = (h : ℚ) := mul_one _
  refine ⟨hmin, ?_, ?_, ?_, ?_⟩ <;> rw [hmin]
  · simpa using le_trans (Int.floor_le_floor hboundW)
      (le_of_eq (Int.floor_natCast _))
  · simpa using le_trans (Int.floor_le_floor hselfW)
      (le_of_eq (Int.floor_natCast _))
  · simpa using le_trans (Int.floor_le_floor hboundH)
      (le_of_eq (Int.floor_natCast _))
  · simpa using le_trans (Int.floor_le_floor hselfH)
      (le_of_eq (Int.floor_natCast _))

theorem get_display_size_fits_witness :
    0 < 3 ∧
    (get_display_size 0 0 3 5).1 ≤ (orDefault 0 400 : ℤ) ∧
    (get_display_size 0 0 3 5).1 ≤ (3 : ℤ) ∧
    (get_display_size 0 0 3 5).2 ≤ (orDefault 0 400 : ℤ) ∧
    (get_display_size 0 0 3 5).2 ≤ (5 : ℤ) :=
  ⟨by decide, (get_display_size_fits 0 0 3 5 (by decide) (by decide)).2⟩

/-- Claim C10: `get_display_size` can return a zero dimension (here a 2×1
image in a 1×1 pane), and the clamp `max 1` that `on_select` applies to
both components before `resize` always yields dimensions at least 1×1. -/
theorem get_display_size_zero_and_clamp :
    get_display_size 1 1 2 1 = (1, 0) ∧
    ∀ a b w h : ℕ,
      1 ≤ (clampDims (get_display_size a b w h)).1 ∧
      1 ≤ (clampDims (get_display_size a b w h)).2 :=
  ⟨by norm_num [get_display_size, ratMin, orDefault],
   fun _ _ _ _ => ⟨le_max_left _ _, le_max_left _ _⟩⟩

/-- Claim C2: for every opened archive, the entry list is exactly the zip
member names whose lowercased name ends with `.jpg`, `.jpeg`, `.gif` or
`.png`, in `namelist()` order, each carrying the display name
`basename::member`. -/
theorem open_ucp_entry_list (env : Env) (path : Str) (s : ViewerState)
    (zid : ℕ) (names : List Str) (hp : path ≠ [])
    (hz : env.zipOf path = some (zid, names)) :
    ∃ s', open_ucp env path s = some s' ∧
      s'.entries = (names.filter isImageName).map
        (fun n => (zid, n, basenameL path ++ "::".data ++ n)) := by
  have hpe : path.isEmpty = false := isEmpty_false_of_ne_nil hp
  obtain ⟨s', hs', hent, -⟩ := populate_listbox_some
    { s with entries := entriesFromArchive zid (basenameL path) names }
  refine ⟨s', ?_, ?_⟩
  · simp only [open_ucp, hpe, hz, Bool.false_eq_true, if_false]
    exact hs'
  · rw [hent]
    exact entriesFromArchive_eq zid (basenameL path) names

theorem open_ucp_entry_list_witness :
    ∃ s', open_ucp envA "a.ucp".data stInit = some s' ∧
      s'.entries = ((["i.png".data, "n.txt".data].filter isImageName).map
        (fun n => (1, n, basenameL "a.ucp".data ++ "::".data ++ n))) :=
  open_ucp_entry_list envA "a.ucp".data stInit 1 ["i.png".data, "n.txt".data]
    (by decide) rfl

/-- Claim C5: opening a path that is not a valid zip container reports an
error and leaves the entry list (and listbox) unchanged; opening a valid
container reports no error and rebuilds the entry list from the archive. -/
theorem open_ucp_error_handling (env : Env) (path : Str) (s : ViewerState)
    (hp : path ≠ []) :
    (env.zipOf path = none →
      ∃ s', open_ucp env path s = some s' ∧
        s'.entries = s.entries ∧ s'.listboxItems = s.listboxItems ∧
        s'.errorsShown = s.errorsShown + 1) ∧
    (∀ zid names, env.zipOf path = some (zid, names) →
      ∃ s', open_ucp env path s = some s' ∧
        s'.errorsShown = s.errorsShown ∧
        s'.entries = entriesFromArchive zid (basenameL path) names) := by
  have hpe : path.isEmpty = false := isEmpty_false_of_ne_nil hp
  constructor
  · intro hz
    refine ⟨{ s with errorsShown := s.errorsShown + 1 }, ?_, rfl, rfl, rfl⟩
    simp only [open_ucp, hpe, hz, Bool.false_eq_true, if_false]
  · intro zid names hz
    obtain ⟨s', hs', hent, -, herr, -⟩ := populate_listbox_some
      { s with entries := entriesFromArchive zid (basenameL path) names }
    refine ⟨s', ?_, herr, hent⟩
    simp only [open_ucp, hpe, hz, Bool.false_eq_true, if_false]
    exact hs'

theorem open_ucp_error_handling_witness :
    ∃ s', open_ucp envA "bad.ucp".data stInit = some s' ∧
      s'.entries = stInit.entries ∧ s'.listboxItems = stInit.listboxItems ∧
      s'.errorsShown = stInit.errorsShown + 1 :=
  (open_ucp_error_handling envA "bad.ucp".data stInit (by decide)).1 (by decide)

/-- Claim C7: `populate_listbox` shows exactly the display names of the
entry list, in order, and when the entry list is non-empty it selects the
first entry and displays its image. -/
theorem populate_listbox_shows_entries (s : ViewerState) :
    ∃ s', populate_listbox s = some s' ∧
      s'.listboxItems = s.entries.map (fun e : Entry => e.2.2) ∧
      (∀ e0, s.entries.get? 0 = some e0 →
        s'.curselection = [0] ∧
        ∃ p, cacheFind (entryKey e0) s'.cache = some p ∧
          s'.displayedImage = some p) := by
  obtain ⟨s', hs', -, hlist, -, -, -, hfirst⟩ := populate_listbox_some s
  exact ⟨s', hs', hlist, hfirst⟩

theorem populate_listbox_shows_entries_witness :
    ∃ s', populate_listbox stPop = some s' ∧
      s'.listboxItems = stPop.entries.map (fun e : Entry => e.2.2) ∧
      (∀ e0, stPop.entries.get? 0 = some e0 →
        s'.curselection = [0] ∧
        ∃ p, cacheFind (entryKey e0) s'.cache = some p ∧
          s'.displayedImage = some p) :=
  populate_listbox_shows_entries stPop

theorem foldl_archive_entries (env : Env) :
    ∀ (l : List Str) (acc : List Entry),
      l.foldl
        (fun acc p =>
          match env.zipOf p with
          | none => acc
          | some (zid, names) =>
              acc ++ entriesFromArchive zid (basenameL p) names)
        acc
      = acc ++ l.flatMap (fun p => archiveEntries env p)
  | [], acc => by simp
  | p :: l, acc => by
      cases hz : env.zipOf p with
      | none =>
          simp only [List.foldl_cons, List.flatMap_cons, hz, archiveEntries,
            foldl_archive_entries env l]
          simp
      | some v =>
          obtain ⟨zid, names⟩ := v
          simp only [List.foldl_cons, List.flatMap_cons, hz, archiveEntries,
            foldl_archive_entries env l]
          simp [List.append_assoc]

/-- Claim C8: when the recursive scan finds no `.ucp` file, the info dialog
is shown and `open_ucp_folder` returns before touching the entry list: the
entries, listbox, selection, cache and displayed image are unchanged. -/
theorem open_ucp_folder_no_archives (env : Env) (path : Str) (t : DirTree)
    (s : ViewerState) (hp : path ≠ []) (h : collectArchives path t = []) :
    ∃ s', open_ucp_folder env path (some t) s = some s' ∧
      s'.entries = s.entries ∧ s'.listboxItems = s.listboxItems ∧
      s'.curselection = s.curselection ∧ s'.cache = s.cache ∧
      s'.displayedImage = s.displayedImage ∧
      s'.infosShown = s.infosShown + 1 := by
  have hpe : path.isEmpty = false := isEmpty_false_of_ne_nil hp
  refine ⟨{ s with infosShown := s.infosShown + 1 }, ?_, rfl, rfl, rfl, rfl, rfl, rfl⟩
  simp only [open_ucp_folder, hpe, h, Bool.false_eq_true, if_false,
    List.isEmpty_nil, if_true]

theorem open_ucp_folder_no_archives_witness :
    ∃ s', open_ucp_folder envA "root".data (some treeNoUcp) stInit = some s' ∧
      s'.entries = stInit.entries ∧ s'.listboxItems = stInit.listboxItems ∧
      s'.curselection = stInit.curselection ∧ s'.cache = stInit.cache ∧
      s'.displayedImage = stInit.displayedImage ∧
      s'.infosShown = stInit.infosShown + 1 :=
  open_ucp_folder_no_archives envA "root".data treeNoUcp stInit
    (by decide) (by decide)

/-- Claim C9: in folder mode an archive that raises `BadZipFile` is skipped
silently (no dialog of either kind) and contributes nothing, while the
entries of the remaining valid archives are all collected, in scan order. -/
theorem open_ucp_folder_skips_invalid (env : Env) (path : Str) (t : DirTree)
    (s : ViewerState) (hp : path ≠ []) (h : collectArchives path t ≠ []) :
    ∃ s', open_ucp_folder env path (some t) s = some s' ∧
      s'.entries =
        (collectArchives path t).flatMap (fun p => archiveEntries env p) ∧
      s'.errorsShown = s.errorsShown ∧
      s'.infosShown = s.infosShown := by
  have hpe : path.isEmpty = false := isEmpty_false_of_ne_nil hp
  have harch : (collectArchives path t).isEmpty = false :=
    isEmpty_false_of_ne_nil h
  obtain ⟨s', hs', hent, -, herr, hinfo, -⟩ := populate_listbox_some
    { s with entries :=
        (collectArchives path t).flatMap (fun p => archiveEntries env p) }
  refine ⟨s', ?_, hent, herr, hinfo⟩
  simp only [open_ucp_folder, hpe, harch, Bool.false_eq_true, if_false]
  rw [foldl_archive_entries env (collectArchives path t) []]
  rw [List.nil_append]
  exact hs'

theorem open_ucp_folder_skips_invalid_witness :
    ∃ s', open_ucp_folder envFolder "root".data (some treeTwo) stInit = some s' ∧
      s'.entries = (collectArchives "root".data treeTwo).flatMap
        (fun p => archiveEntries envFolder p) ∧
      s'.errorsShown = stInit.errorsShown ∧
      s'.infosShown = stInit.infosShown :=
  open_ucp_folder_skips_invalid envFolder "root".data treeTwo stInit
    (by decide) (by decide)

theorem setDisplayed_eta (s : ViewerState) (p : Option ℕ)
    (hp : s.displayedImage = p) : { s with displayedImage := p } = s := by
  cases s
  cases hp
  rfl

/-- Claim C4: the cache is keyed by `(id(zip_obj), name)`; after a
selection of an entry, that key is in the cache and holds the displayed
photo, and selecting the same entry again returns the very same state with
the stored photo still displayed and performs no zip read or decode
(the boolean is `false`): selection is idempotent with respect to the
cache. -/
theorem on_select_cache_idempotent (s : ViewerState) (i : ℕ) (rest : List ℕ)
    (e : Entry) (s1 : ViewerState) (b1 : Bool)
    (hsel : s.curselection = i :: rest) (he : s.entries.get? i = some e)
    (h1 : on_select s = some (s1, b1)) :
    ∃ p, cacheFind (entryKey e) s1.cache = some p ∧
      s1.displayedImage = some p ∧
      on_select s1 = some (s1, false) := by
  cases hc : cacheFind (entryKey e) s.cache with
  | some photo =>
      have hstep := on_select_hit s i rest e photo hsel he hc
      rw [hstep] at h1
      have hpair : ({ s with displayedImage := some photo }, false)
          = ((s1, b1) : ViewerState × Bool) := Option.some.inj h1
      have hs1 : s1 = { s with displayedImage := some photo } :=
        (congrArg Prod.fst hpair).symm
      refine ⟨photo, ?_, ?_, ?_⟩
      · rw [hs1]; exact hc
      · rw [hs1]
      · have hsel1 : s1.curselection = i :: rest := by rw [hs1]; exact hsel
        have he1 : s1.entries.get? i = some e := by rw [hs1]; exact he
        have hc1 : cacheFind (entryKey e) s1.cache = some photo := by
          rw [hs1]; exact hc
        have hstep1 := on_select_hit s1 i rest e photo hsel1 he1 hc1
        rw [hstep1]
        have : ({ s1 with displayedImage := some photo } : ViewerState) = s1 :=
          setDisplayed_eta s1 (some photo) (by rw [hs1])
        rw [this]
  | none =>
      have hstep := on_select_miss s i rest e hsel he hc
      rw [hstep] at h1
      have hpair : ({ s with
          cache := (entryKey e, s.nextPhotoId) :: s.cache,
          nextPhotoId := s.nextPhotoId + 1,
          displayedImage := some s.nextPhotoId }, true)
          = ((s1, b1) : ViewerState × Bool) := Option.some.inj h1
      have hs1 : s1 = { s with
          cache := (entryKey e, s.nextPhotoId) :: s.cache,
          nextPhotoId := s.nextPhotoId + 1,
          displayedImage := some s.nextPhotoId } :=
        (congrArg Prod.fst hpair).symm
      have hc1 : cacheFind (entryKey e) s1.cache = some s.nextPhotoId := by
        rw [hs1]
        simp [cacheFind]
      refine ⟨s.nextPhotoId, hc1, ?_, ?_⟩
      · rw [hs1]
      · have hsel1 : s1.curselection = i :: rest := by rw [hs1]; exact hsel
        have he1 : s1.entries.get? i = some e := by rw [hs1]; exact he
        have hstep1 := on_select_hit s1 i rest e s.nextPhotoId hsel1 he1 hc1
        rw [hstep1]
        have : ({ s1 with displayedImage := some s.nextPhotoId } : ViewerState)
            = s1 := setDisplayed_eta s1 (some s.nextPhotoId) (by rw [hs1])
        rw [this]

theorem on_select_cache_idempotent_witness :
    ∃ p, cacheFind (entryKey (5, "i.png".data, "z.ucp::i.png".data))
        stSel1.cache = some p ∧
      stSel1.displayedImage = some p ∧
      on_select stSel1 = some (stSel1, false) :=
  on_select_cache_idempotent stSel 0 [] (5, "i.png".data, "z.ucp::i.png".data)
    stSel1 true rfl rfl (by decide)

theorem filter_map_pair (p : Str) (files : List Str) :
    (((files.map (fun f => (p, f))).filter
        (fun df : Str × Str => isUcpName df.2)).map
      (fun df : Str × Str => joinPath df.1 df.2))
      = (files.filter isUcpName).map (fun f => joinPath p f) := by
  induction files with
  | nil => rfl
  | cons f fs ih =>
      by_cases h : isUcpName f <;> simp [List.filter_cons, h, ih]

mutual

theorem collect_walk_aux : ∀ (p : Str) (t : DirTree),
    (walkFrom p t).flatMap
        (fun rf => (rf.2.filter isUcpName).map (fun f => joinPath rf.1 f))
      = ((filesUnder p t).filter (fun df : Str × Str => isUcpName df.2)).map
        (fun df : Str × Str => joinPath df.1 df.2)
  | p, DirTree.node n files subdirs => by
      simp only [walkFrom, filesUnder, List.flatMap_cons, List.filter_append,
        List.map_append]
      rw [collect_children_aux p subdirs, filter_map_pair]

theorem collect_children_aux : ∀ (p : Str) (ts : List DirTree),
    (walkChildren p ts).flatMap
        (fun rf => (rf.2.filter isUcpName).map (fun f => joinPath rf.1 f))
      = ((filesUnderChildren p ts).filter
          (fun df : Str × Str => isUcpName df.2)).map
        (fun df : Str × Str => joinPath df.1 df.2)
  | _, [] => by
      simp [walkChildren, filesUnderChildren]
  | p, t :: ts => by
      simp only [walkChildren, filesUnderChildren, List.flatMap_append,
        List.filter_append, List.map_append]
      rw [collect_walk_aux (joinPath p t.name) t, collect_children_aux p ts]

end

/-- Claim C3: the archive paths collected by the recursive scan are exactly
the files anywhere under the given directory (in directory-walk order)
whose lowercased filename ends with `.ucp`, each joined to the directory
it was found in. -/
theorem collectArchives_exact (folderPath : Str) (t : DirTree) :
    collectArchives folderPath t
      = ((filesUnder folderPath t).filter
          (fun df : Str × Str => isUcpName df.2)).map
        (fun df : Str × Str => joinPath df.1 df.2) := by
  simp only [collectArchives]
  exact collect_walk_aux folderPath t

/-- Claim C6 (counterexample): with an empty-string folder argument and a
file argument both supplied, the program takes the file branch, not the
folder branch, because `if args.folder:` tests Python truthiness and the
empty string is falsy. -/
theorem mainDispatch_counterexample :
    mainDispatch (Args.mk (some []) (some "a.ucp".data))
        = MainAction.fileMode "a.ucp".data ∧
    mainDispatch (Args.mk (some []) (some "a.ucp".data))
        ≠ MainAction.folderMode [] := by
  decide

/-- Claim C6 (amended): when a non-empty folder argument is given, folder
mode is taken regardless of the file argument; when the folder argument is
absent or empty and a non-empty file argument is given, that file is
opened; when both are absent or empty, neither happens.  (An empty string
supplied as an argument is falsy in Python and is treated as not given.) -/
theorem mainDispatch_modes (a : Args) :
    (∀ f, a.folder = some f → f ≠ [] →
      mainDispatch a = MainAction.folderMode f) ∧
    ((a.folder = none ∨ a.folder = some []) →
      ∀ g, a.file = some g → g ≠ [] →
        mainDispatch a = MainAction.fileMode g) ∧
    ((a.folder = none ∨ a.folder = some []) →
      (a.file = none ∨ a.file = some []) →
        mainDispatch a = MainAction.idle) := by
  refine ⟨?_, ?_, ?_⟩
  · intro f hf hne
    have ht : strTruthy (some f) = true := by
      simp [strTruthy, isEmpty_false_of_ne_nil hne]
    simp [mainDispatch, hf, ht]
  · intro hfold g hg hne
    have h2 : strTruthy (some g) = true := by
      simp [strTruthy, isEmpty_false_of_ne_nil hne]
    rcases hfold with h | h <;> simp [mainDispatch, h, hg, h2, strTruthy, hne]
  · intro hfold hfile
    rcases hfold with h | h <;> rcases hfile with h' | h' <;>
      simp [mainDispatch, h, h', strTruthy]

theorem mainDispatch_modes_witness :
    mainDispatch (Args.mk (some "d".data) (some "a.ucp".data))
      = MainAction.folderMode "d".data :=
  (mainDispatch_modes (Args.mk (some "d".data) (some "a.ucp".data))).1
    "d".data rfl (by decide)

end UCPDisplay
